import Mathlib

/-!
Verification development for the news-cache and teaser-allocation core of the
traffic-arbitration repository (`web/cache.py`, `web/services.py`,
`web/schemas.py`).  The Python code is shallowly embedded: ORM rows become
structures, the cache's mutable fields become an explicit `CacheState`, the
allocator's iterator loop becomes structural recursion over explicit cursor
lists, and object mutation (`preview_obj.slug = ...`) is recorded in a served
log from which the post-call snapshot is derived.
-/

namespace TrafficArbitration

/-- Embeds the `ArticlePreview` ORM model (`models.py`) together with the
attributes `services.py` reads and writes on cached preview objects.  `slug`
is not a column of the model: it is an attribute the teaser service sets
dynamically (`preview_obj.slug = teaser_item.slug`), so it is `Option String`,
`none` until the service assigns it. -/
structure ArticlePreview where
  id : Nat
  article_id : Nat
  title : Option String
  text : Option String
  image : Option String
  created_at : Nat
  slug : Option String
deriving Repr, DecidableEq

/-- Modelled from the spec: `services.py` imports `CachedPreviewItem` from
`web/cache.py`, but no file under the sources defines it (`cache.py` stores
raw `ArticlePreview` objects).  The spec's `CandidateItem` together with the
fields the services actually access (`item.preview_obj`, `item.slug`,
`item.category`) fixes its shape: a detached snapshot record wrapping the
preview object with its slug and category code. -/
structure CachedPreviewItem where
  preview_obj : ArticlePreview
  slug : String
  category : Option String
deriving Repr, DecidableEq

/-- Embeds `TeaserRequestSchema` (`schemas.py`), restricted to the fields the
teaser service consumes.  `widgets : Dict[str, int]` is modelled as an
association list in insertion order, since the service iterates
`request_data.widgets.items()` in that order. -/
structure TeaserRequestSchema where
  widgets : List (String × Nat)
  seen_ids_page : List Nat
  seen_ids_long_term : List Nat
  category : Option String
deriving Repr, DecidableEq

/-- Embeds `TeaserResponseSchema` (`schemas.py`).  The service returns a dict
with exactly the keys `widgets` and `newly_served_ids`; the schema supplies
the default `[]` for the field `seen_ids_long_term`, which no code path ever
populates. -/
structure TeaserResponseSchema where
  widgets : List (String × ArticlePreview)
  newly_served_ids : List Nat
  seen_ids_long_term : List Nat
deriving Repr, DecidableEq

/-- Python truthiness of an `Optional[str]`: `None` and `""` are falsy.  Used
for the `if category:` test in `NewsRanker.get_ranked_previews`. -/
def truthyStr : Option String → Bool
  | none => false
  | some s => !(s == "")

/-- Embeds `NewsRanker.get_ranked_previews` (`services.py`).  The cache read
`self.cache.get_previews()` is passed in as `all_preview_items`.  Filtering
by category falls back to the whole list when no item matches; the list is
already sorted in the cache; pagination is Python slicing, here with `Nat`
offset (the service always calls it with `limit=None`, `offset=0`). -/
def get_ranked_previews (all_preview_items : List CachedPreviewItem)
    (limit : Option Nat) (offset : Nat) (category : Option String) :
    List CachedPreviewItem :=
  let filtered_items :=
    if truthyStr category then
      let f := all_preview_items.filter (fun item => item.category == category)
      if f.isEmpty then all_preview_items else f
    else
      all_preview_items
  let ranked_items := filtered_items
  match limit with
  | none => ranked_items.drop offset
  | some l => (ranked_items.drop offset).take l

/-- Embeds the pool-building loop of `TeaserService.get_teasers_for_widgets`
(Step 3 in `services.py`): one pass over the ranked items; an item goes to
the fresh pool when its id is in neither dedup set (`excluded_ids` is the
union of the two), otherwise to the reusable pool when its id is long-term
seen but not seen on this page; items seen on this page are dropped.
Returns `(available_teasers, reusable_teasers)`. -/
def buildPools (seen_on_page seen_long_term : List Nat) :
    List CachedPreviewItem → List CachedPreviewItem × List CachedPreviewItem
  | [] => ([], [])
  | item :: rest =>
    let p := buildPools seen_on_page seen_long_term rest
    if item.preview_obj.id ∉ seen_on_page ∧ item.preview_obj.id ∉ seen_long_term then
      (item :: p.1, p.2)
    else if item.preview_obj.id ∈ seen_long_term ∧ item.preview_obj.id ∉ seen_on_page then
      (p.1, item :: p.2)
    else
      p

/-- Advances an iterator past items whose id is already in `served`,
returning the first unserved item and the remaining iterator, or `none` when
the iterator raises `StopIteration` during the skip loop (`next(...)` /
`while teaser_item.preview_obj.id in served_on_this_request` in
`services.py`). -/
def popUnserved (served : List Nat) :
    List CachedPreviewItem → Option (CachedPreviewItem × List CachedPreviewItem)
  | [] => none
  | item :: rest =>
    if item.preview_obj.id ∈ served then popUnserved served rest
    else some (item, rest)

/-- One allocation event, recorded for analysis of the allocator run: either
a fresh-pool assignment, or a reusable-pool assignment carrying the state of
the fresh cursor and the served set at the moment the fresh iterator was
found exhausted. -/
inductive AllocEvent where
  | freshAssign (widget : String) (item : CachedPreviewItem)
  | reusAssign (widget : String) (availBefore : List CachedPreviewItem)
      (servedBefore : List Nat) (item : CachedPreviewItem)
deriving Repr, DecidableEq

/-- The mutable state of the allocation loop in
`TeaserService.get_teasers_for_widgets`: the two pool iterators, the
per-request served set, the response dict under construction, the list of
newly served ids, the log of served wrapper items (through which the
`preview_obj.slug` mutation is replayed onto the snapshot), and the event
trace. -/
structure AllocState where
  avail : List CachedPreviewItem
  reus : List CachedPreviewItem
  served : List Nat
  widgetsOut : List (String × ArticlePreview)
  newIds : List Nat
  servedItems : List CachedPreviewItem
  trace : List AllocEvent
deriving Repr, DecidableEq

/-- Python dict assignment `d[k] = v`: replaces the value of an existing key
in place (keys keep their insertion position), otherwise appends. -/
def upsert (m : List (String × ArticlePreview)) (k : String) (v : ArticlePreview) :
    List (String × ArticlePreview) :=
  match m with
  | [] => [(k, v)]
  | (k', v') :: rest =>
    if k' == k then (k, v) :: rest else (k', v') :: upsert rest k v

/-- The served item's preview object after the mutation
`preview_obj.slug = teaser_item.slug` in `services.py`. -/
def applySlug (item : CachedPreviewItem) : ArticlePreview :=
  { item.preview_obj with slug := some item.slug }

/-- The body of `if teaser_item:` in `services.py`: set the slug on the
preview object, store it under the widget name (dict overwrite), add its id
to the per-request served set, and record it as newly served when it was not
long-term seen. -/
def assignItem (seen_long_term : List Nat) (widget : String)
    (ev : AllocEvent) (item : CachedPreviewItem) (st : AllocState) : AllocState :=
  { st with
    widgetsOut := upsert st.widgetsOut widget (applySlug item)
    served := st.served ++ [(applySlug item).id]
    newIds :=
      if (applySlug item).id ∈ seen_long_term then st.newIds
      else st.newIds ++ [(applySlug item).id]
    servedItems := st.servedItems ++ [item]
    trace := st.trace ++ [ev] }

/-- One iteration of `for _ in range(quantity)`: first try the fresh
iterator (skipping served ids), on `StopIteration` try the reusable iterator
(skipping served ids), on a second `StopIteration` signal `none` (the
`break`).  When the fresh iterator is exhausted it stays exhausted, and on
`break` both iterators are exhausted. -/
def allocUnit (seen_long_term : List Nat) (widget : String) (st : AllocState) :
    Option AllocState :=
  match popUnserved st.served st.avail with
  | some (item, rest) =>
    some (assignItem seen_long_term widget (AllocEvent.freshAssign widget item)
      item { st with avail := rest })
  | none =>
    match popUnserved st.served st.reus with
    | some (item, rest) =>
      some (assignItem seen_long_term widget
        (AllocEvent.reusAssign widget st.avail st.served item)
        item { st with avail := [], reus := rest })
    | none => none

/-- The inner loop `for _ in range(quantity)` of the allocator; `none` from
`allocUnit` is the `break` out of the quantity loop, with both iterators
exhausted. -/
def allocSlot (seen_long_term : List Nat) (widget : String) :
    Nat → AllocState → AllocState
  | 0, st => st
  | q + 1, st =>
    match allocUnit seen_long_term widget st with
    | none => { st with avail := [], reus := [] }
    | some st' => allocSlot seen_long_term widget q st'

/-- The outer loop `for widget_name, quantity in request_data.widgets.items()`
of the allocator. -/
def allocWidgets (seen_long_term : List Nat) :
    List (String × Nat) → AllocState → AllocState
  | [], st => st
  | (widget_name, quantity) :: rest, st =>
    allocWidgets seen_long_term rest (allocSlot seen_long_term widget_name quantity st)

/-- The full allocator run of `TeaserService.get_teasers_for_widgets`:
builds the exclusion sets and the two pools from the ranked items
(`get_ranked_previews` with `limit=None` and the request category), then
runs the widget loop from the empty state.  Returns the final loop state. -/
def runAllocation (snapshot : List CachedPreviewItem)
    (request_data : TeaserRequestSchema) : AllocState :=
  let all_teaser_items := get_ranked_previews snapshot none 0 request_data.category
  let (available_teasers, reusable_teasers) :=
    buildPools request_data.seen_ids_page request_data.seen_ids_long_term all_teaser_items
  allocWidgets request_data.seen_ids_long_term request_data.widgets
    { avail := available_teasers, reus := reusable_teasers, served := [],
      widgetsOut := [], newIds := [], servedItems := [], trace := [] }

/-- Embeds `TeaserService.get_teasers_for_widgets` composed with response
validation: the returned dict has keys `widgets` and
`newly_served_ids := list(set(...))` only, so `TeaserResponseSchema` fills
its default `[]` for `seen_ids_long_term`. -/
def get_teasers_for_widgets (snapshot : List CachedPreviewItem)
    (request_data : TeaserRequestSchema) : TeaserResponseSchema :=
  let final := runAllocation snapshot request_data
  { widgets := final.widgetsOut
    newly_served_ids := final.newIds.dedup
    seen_ids_long_term := [] }

/-- The cache snapshot after an allocation call: `preview_obj.slug =
teaser_item.slug` mutates the preview objects held in the cached items
in place, so every snapshot entry that was served during the call now
carries the wrapper slug; entries not served are untouched.  (Items are
compared by value, which coincides with Python object identity for the
items actually drawn from the pools.) -/
def snapshotAfterCall (snapshot : List CachedPreviewItem)
    (request_data : TeaserRequestSchema) : List CachedPreviewItem :=
  let final := runAllocation snapshot request_data
  snapshot.map (fun c =>
    if c ∈ final.servedItems then { c with preview_obj := applySlug c } else c)

/-- The mutable fields of `NewsCache` (`cache.py`): the snapshot list, the
last-refresh timestamp, the refresh lock, and whether a session factory has
been injected.  Time is modelled as `Nat`. -/
structure NewsCache where
  ttl : Nat
  previews : List ArticlePreview
  last_updated : Nat
  lock_held : Bool
  has_session_maker : Bool
deriving Repr, DecidableEq

/-- The per-row `ArticlePreview(**model_data)` construction loop of
`NewsCache._update_cache_from_db`: a row whose construction raises
`TypeError` is logged and skipped (`none`), the rest become preview
objects. -/
def buildPreviews (rows : List (Option ArticlePreview)) : List ArticlePreview :=
  rows.filterMap id

/-- Embeds `NewsCache._update_cache_from_db`.  The database query is passed
in as `fetch`: `Except.error` models the query (or session) raising, which
propagates out of this method; `Except.ok rows` is the fetched row set.
Without a session maker the method logs and returns with the state
unchanged.  On success the new list is built and the snapshot and timestamp
are replaced. -/
def update_cache_from_db (fetch : Except Unit (List (Option ArticlePreview)))
    (now : Nat) (st : NewsCache) : Except Unit NewsCache :=
  if !st.has_session_maker then
    Except.ok st
  else
    match fetch with
    | Except.error e => Except.error e
    | Except.ok rows =>
      Except.ok { st with previews := buildPreviews rows, last_updated := now }

/-- Embeds `NewsCache._run_update_in_background`: non-blocking lock acquire
(a held lock makes the call a no-op), the update body in a `try` whose
`except` logs the exception and whose `finally` releases the lock.  The
function always returns a state — no exception escapes. -/
def run_update_in_background (fetch : Except Unit (List (Option ArticlePreview)))
    (now : Nat) (st : NewsCache) : NewsCache :=
  if st.lock_held then
    st
  else
    let locked := { st with lock_held := true }
    match update_cache_from_db fetch now locked with
    | Except.ok st' => { st' with lock_held := false }
    | Except.error _ => { locked with lock_held := false }

/-- Embeds the spawn decision of `NewsCache._update_if_needed`: a background
refresh thread is started iff the snapshot is older than the TTL and the
lock is free. -/
def update_if_needed_spawns (now : Nat) (st : NewsCache) : Bool :=
  decide (st.ttl < now - st.last_updated) && !st.lock_held

/-- Embeds the read path of `NewsCache.get_previews`: after the (purely
spawning, non-mutating) `_update_if_needed` check, the current snapshot
reference is returned immediately. -/
def get_previews (st : NewsCache) : List ArticlePreview :=
  st.previews

/-- A micro-step of the refresh body `_update_cache_from_db` as seen by
concurrent readers of the shared cache: `localWork` covers the query and the
row-by-row construction of the local `new_previews` list (no shared state is
touched), `swapPreviews` is the single reference assignment
`self.previews = new_previews`, and `setTimestamp` is
`self.last_updated = time.time()`. -/
inductive RefreshStep where
  | localWork
  | swapPreviews
  | setTimestamp
deriving Repr, DecidableEq

/-- The refresh body as a sequence of micro-steps: one unit of local work
per fetched row, then the atomic snapshot swap, then the timestamp write. -/
def refreshScript (rows : List (Option ArticlePreview)) : List RefreshStep :=
  rows.map (fun _ => RefreshStep.localWork) ++
    [RefreshStep.swapPreviews, RefreshStep.setTimestamp]

/-- Effect of one refresh micro-step on the shared cache state, where
`new_previews` is the locally built list being installed. -/
def execStep (new_previews : List ArticlePreview) (now : Nat)
    (st : NewsCache) : RefreshStep → NewsCache
  | RefreshStep.localWork => st
  | RefreshStep.swapPreviews => { st with previews := new_previews }
  | RefreshStep.setTimestamp => { st with last_updated := now }

/-- Executes a sequence of refresh micro-steps on the shared cache state. -/
def execSteps (new_previews : List ArticlePreview) (now : Nat)
    (st : NewsCache) (steps : List RefreshStep) : NewsCache :=
  steps.foldl (fun s stp => execStep new_previews now s stp) st

/-! Sample data used by concrete witnesses and counterexamples. -/

/-- A sample preview object with the given id. -/
def samplePreview (i : Nat) : ArticlePreview :=
  { id := i, article_id := i, title := some "t", text := none, image := none,
    created_at := 0, slug := none }

/-- A sample cached item wrapping `samplePreview i` with slug `"s" ++ i`. -/
def sampleItem (i : Nat) : CachedPreviewItem :=
  { preview_obj := samplePreview i, slug := "s" ++ toString i, category := none }

/-- Request with one slot of quantity 1 and a long-term seen id that is not
in the snapshot. -/
def reqOneSlotLong : TeaserRequestSchema :=
  { widgets := [("l", 1)], seen_ids_page := [], seen_ids_long_term := [1],
    category := none }

/-- Request with one slot and a page-seen id. -/
def reqPageSeen : TeaserRequestSchema :=
  { widgets := [("l00", 1)], seen_ids_page := [2], seen_ids_long_term := [],
    category := none }

/-- Request with two slots whose only fresh candidates are long-term seen
except the first snapshot entry. -/
def reqReuse : TeaserRequestSchema :=
  { widgets := [("a", 1), ("b", 1)], seen_ids_page := [],
    seen_ids_long_term := [2], category := none }

/-- Request listing slot `l` before slot `s`. -/
def reqOrderLS : TeaserRequestSchema :=
  { widgets := [("l", 1), ("s", 1)], seen_ids_page := [],
    seen_ids_long_term := [], category := none }

/-- The same demand as `reqOrderLS` with the two slots listed in the other
order. -/
def reqOrderSL : TeaserRequestSchema :=
  { widgets := [("s", 1), ("l", 1)], seen_ids_page := [],
    seen_ids_long_term := [], category := none }

/-- Request with a single slot of quantity 2. -/
def reqQtyTwo : TeaserRequestSchema :=
  { widgets := [("l", 2)], seen_ids_page := [], seen_ids_long_term := [],
    category := none }

/-- A sample cache state with a held session maker and a free lock. -/
def sampleCache : NewsCache :=
  { ttl := 300, previews := [samplePreview 1], last_updated := 100,
    lock_held := false, has_session_maker := true }

/-! Helper lemmas about the iterator and dict primitives. -/

theorem popUnserved_none_iff (served : List Nat) (l : List CachedPreviewItem)
    (h : popUnserved served l = none) :
    ∀ x ∈ l, x.preview_obj.id ∈ served := by
  induction l with
  | nil => intro x hx; cases hx
  | cons a rest ih =>
    intro x hx
    rw [popUnserved] at h
    by_cases ha : a.preview_obj.id ∈ served
    · rw [if_pos ha] at h
      rcases List.mem_cons.mp hx with rfl | hx'
      · exact ha
      · exact ih h x hx'
    · rw [if_neg ha] at h
      cases h

theorem popUnserved_some (served : List Nat) (l : List CachedPreviewItem)
    (x : CachedPreviewItem) (r : List CachedPreviewItem)
    (h : popUnserved served l = some (x, r)) :
    x ∈ l ∧ x.preview_obj.id ∉ served ∧ ∀ y ∈ r, y ∈ l := by
  induction l with
  | nil => cases h
  | cons a rest ih =>
    rw [popUnserved] at h
    by_cases ha : a.preview_obj.id ∈ served
    · rw [if_pos ha] at h
      obtain ⟨hx, hns, hr⟩ := ih h
      exact ⟨List.mem_cons_of_mem a hx, hns,
        fun y hy => List.mem_cons_of_mem a (hr y hy)⟩
    · rw [if_neg ha] at h
      rw [Option.some.injEq, Prod.mk.injEq] at h
      obtain ⟨rfl, rfl⟩ := h
      exact ⟨List.mem_cons_self a rest, ha, fun y hy => List.mem_cons_of_mem a hy⟩

theorem upsert_mem (m : List (String × ArticlePreview)) (k : String)
    (v : ArticlePreview) (kv : String × ArticlePreview)
    (h : kv ∈ upsert m k v) : kv = (k, v) ∨ kv ∈ m := by
  induction m with
  | nil =>
    rw [upsert] at h
    rcases List.mem_cons.mp h with rfl | h'
    · exact Or.inl rfl
    · cases h'
  | cons a rest ih =>
    rw [upsert] at h
    by_cases hk : (a.1 == k) = true
    · rw [if_pos hk] at h
      rcases List.mem_cons.mp h with rfl | h'
      · exact Or.inl rfl
      · exact Or.inr (List.mem_cons_of_mem a h')
    · rw [if_neg hk] at h
      rcases List.mem_cons.mp h with rfl | h'
      · exact Or.inr (List.mem_cons_self a rest)
      · rcases ih h' with h'' | h''
        · exact Or.inl h''
        · exact Or.inr (List.mem_cons_of_mem a h'')

theorem buildPools_fst (page long : List Nat) (l : List CachedPreviewItem) :
    ∀ it ∈ (buildPools page long l).1,
      it.preview_obj.id ∉ page ∧ it.preview_obj.id ∉ long := by
  induction l with
  | nil => intro it h; cases h
  | cons a rest ih =>
    intro it h
    rw [buildPools] at h
    by_cases h1 : a.preview_obj.id ∉ page ∧ a.preview_obj.id ∉ long
    · rw [if_pos h1] at h
      rcases List.mem_cons.mp h with rfl | h'
      · exact h1
      · exact ih it h'
    · rw [if_neg h1] at h
      by_cases h2 : a.preview_obj.id ∈ long ∧ a.preview_obj.id ∉ page
      · rw [if_pos h2] at h
        exact ih it h
      · rw [if_neg h2] at h
        exact ih it h

theorem buildPools_snd (page long : List Nat) (l : List CachedPreviewItem) :
    ∀ it ∈ (buildPools page long l).2,
      it.preview_obj.id ∈ long ∧ it.preview_obj.id ∉ page := by
  induction l with
  | nil => intro it h; cases h
  | cons a rest ih =>
    intro it h
    rw [buildPools] at h
    by_cases h1 : a.preview_obj.id ∉ page ∧ a.preview_obj.id ∉ long
    · rw [if_pos h1] at h
      exact ih it h
    · rw [if_neg h1] at h
      by_cases h2 : a.preview_obj.id ∈ long ∧ a.preview_obj.id ∉ page
      · rw [if_pos h2] at h
        rcases List.mem_cons.mp h with rfl | h'
        · exact h2
        · exact ih it h'
      · rw [if_neg h2] at h
        exact ih it h

/-- The ids of the candidate values of the response dict. -/
def idsOf (m : List (String × ArticlePreview)) : List Nat :=
  m.map (fun kv => kv.2.id)

/-- The slot names (keys) of the response dict. -/
def keysOf (m : List (String × ArticlePreview)) : List String :=
  m.map Prod.fst

theorem idsOf_upsert_mem (m : List (String × ArticlePreview)) (k : String)
    (v : ArticlePreview) (x : Nat) (h : x ∈ idsOf (upsert m k v)) :
    x = v.id ∨ x ∈ idsOf m := by
  rw [idsOf, List.mem_map] at h
  obtain ⟨kv, hkv, rfl⟩ := h
  rcases upsert_mem m k v kv hkv with rfl | h'
  · exact Or.inl rfl
  · exact Or.inr (List.mem_map.mpr ⟨kv, h', rfl⟩)

theorem upsert_ids_nodup (m : List (String × ArticlePreview)) (k : String)
    (v : ArticlePreview) (hnd : (idsOf m).Nodup) (hv : v.id ∉ idsOf m) :
    (idsOf (upsert m k v)).Nodup := by
  induction m with
  | nil => simp [upsert, idsOf]
  | cons a rest ih =>
    rw [idsOf, List.map_cons, List.nodup_cons] at hnd
    rw [idsOf, List.map_cons, List.mem_cons] at hv
    push_neg at hv
    rw [upsert]
    by_cases hk : (a.1 == k) = true
    · rw [if_pos hk]
      rw [idsOf, List.map_cons, List.nodup_cons]
      exact ⟨hv.2, hnd.2⟩
    · rw [if_neg hk]
      rw [idsOf, List.map_cons, List.nodup_cons]
      constructor
      · intro hmem
        rcases idsOf_upsert_mem rest k v a.2.id hmem with h' | h'
        · exact hv.1 h'.symm
        · exact hnd.1 h'
      · exact ih hnd.2 hv.2

theorem keysOf_upsert_mem (m : List (String × ArticlePreview)) (k : String)
    (v : ArticlePreview) (x : String) (h : x ∈ keysOf (upsert m k v)) :
    x = k ∨ x ∈ keysOf m := by
  rw [keysOf, List.mem_map] at h
  obtain ⟨kv, hkv, rfl⟩ := h
  rcases upsert_mem m k v kv hkv with rfl | h'
  · exact Or.inl rfl
  · exact Or.inr (List.mem_map.mpr ⟨kv, h', rfl⟩)

theorem upsert_keys_nodup (m : List (String × ArticlePreview)) (k : String)
    (v : ArticlePreview) (hnd : (keysOf m).Nodup) :
    (keysOf (upsert m k v)).Nodup := by
  induction m with
  | nil => simp [upsert, keysOf]
  | cons a rest ih =>
    rw [keysOf, List.map_cons, List.nodup_cons] at hnd
    rw [upsert]
    by_cases hk : (a.1 == k) = true
    · have hak : a.1 = k := beq_iff_eq.mp hk
      rw [if_pos hk, keysOf, List.map_cons, List.nodup_cons]
      refine ⟨?_, hnd.2⟩
      rw [← hak]
      exact hnd.1
    · have hak : a.1 ≠ k := fun he => hk (beq_iff_eq.mpr he)
      rw [if_neg hk, keysOf, List.map_cons, List.nodup_cons]
      constructor
      · intro hmem
        rcases keysOf_upsert_mem rest k v a.1 hmem with h' | h'
        · exact hak h'
        · exact hnd.1 h'
      · exact ih hnd.2

/-- Correctness of a recorded allocation event: a reusable assignment may
only happen when every item remaining in the fresh cursor at that moment was
already served in this request. -/
def eventOk : AllocEvent → Prop
  | AllocEvent.freshAssign _ _ => True
  | AllocEvent.reusAssign _ availBefore servedBefore _ =>
    ∀ x ∈ availBefore, x.preview_obj.id ∈ servedBefore

/-- Invariant maintained by the allocation loop: widget values avoid
page-seen ids, both cursors avoid page-seen ids, widget values have
pairwise-distinct ids and are all served, slot keys are distinct, every
logged served item is served (and newly served when not long-term seen),
and every recorded event is well-formed. -/
def LoopInv (page long : List Nat) (st : AllocState) : Prop :=
  (∀ kv ∈ st.widgetsOut, kv.2.id ∉ page) ∧
  (∀ it ∈ st.avail, it.preview_obj.id ∉ page) ∧
  (∀ it ∈ st.reus, it.preview_obj.id ∉ page) ∧
  (idsOf st.widgetsOut).Nodup ∧
  (∀ kv ∈ st.widgetsOut, kv.2.id ∈ st.served) ∧
  (keysOf st.widgetsOut).Nodup ∧
  (∀ it ∈ st.servedItems, it.preview_obj.id ∈ st.served ∧
    (it.preview_obj.id ∉ long → it.preview_obj.id ∈ st.newIds)) ∧
  (∀ e ∈ st.trace, eventOk e)

theorem applySlug_id (item : CachedPreviewItem) :
    (applySlug item).id = item.preview_obj.id := rfl

theorem assignItem_inv (page long : List Nat) (w : String) (ev : AllocEvent)
    (item : CachedPreviewItem) (st : AllocState)
    (hpage : item.preview_obj.id ∉ page)
    (hserved : item.preview_obj.id ∉ st.served)
    (hev : eventOk ev)
    (hinv : LoopInv page long st) :
    LoopInv page long (assignItem long w ev item st) := by
  obtain ⟨w_page, a_page, r_page, w_nodup, w_served, k_nodup, s_log, t_ok⟩ := hinv
  simp only [assignItem]
  refine ⟨?_, a_page, r_page, ?_, ?_, ?_, ?_, ?_⟩
  · intro kv hkv
    rcases upsert_mem _ _ _ kv hkv with rfl | h'
    · exact hpage
    · exact w_page kv h'
  · refine upsert_ids_nodup _ _ _ w_nodup ?_
    intro hmem
    rw [idsOf, List.mem_map] at hmem
    obtain ⟨kv, hkv, hid⟩ := hmem
    exact hserved (hid ▸ w_served kv hkv)
  · intro kv hkv
    rcases upsert_mem _ _ _ kv hkv with rfl | h'
    · exact List.mem_append_right _ (List.mem_singleton.mpr rfl)
    · exact List.mem_append_left _ (w_served kv h')
  · exact upsert_keys_nodup _ _ _ k_nodup
  · intro it hit
    rcases List.mem_append.mp hit with h' | h'
    · obtain ⟨h1, h2⟩ := s_log it h'
      refine ⟨List.mem_append_left _ h1, fun hl => ?_⟩
      by_cases hmem : (applySlug item).id ∈ long
      · rw [if_pos hmem]
        exact h2 hl
      · rw [if_neg hmem]
        exact List.mem_append_left _ (h2 hl)
    · rw [List.mem_singleton.mp h']
      refine ⟨List.mem_append_right _ (List.mem_singleton.mpr rfl), fun hl => ?_⟩
      show item.preview_obj.id ∈
        (if (applySlug item).id ∈ long then st.newIds
         else st.newIds ++ [(applySlug item).id])
      rw [applySlug_id, if_neg hl]
      exact List.mem_append_right _ (List.mem_singleton.mpr rfl)
  · intro e he
    rcases List.mem_append.mp he with h' | h'
    · exact t_ok e h'
    · rw [List.mem_singleton.mp h']
      exact hev

theorem allocUnit_inv (page long : List Nat) (w : String) (st st' : AllocState)
    (h : allocUnit long w st = some st') (hinv : LoopInv page long st) :
    LoopInv page long st' := by
  rw [allocUnit] at h
  cases hpa : popUnserved st.served st.avail with
  | some pr =>
    rw [hpa] at h
    obtain ⟨hmem, hns, hsub⟩ := popUnserved_some st.served st.avail pr.1 pr.2 hpa
    rw [Option.some.injEq] at h
    subst h
    refine assignItem_inv page long w _ pr.1 _ (hinv.2.1 pr.1 hmem) hns trivial ?_
    obtain ⟨w_page, a_page, r_page, rest⟩ := hinv
    exact ⟨w_page, fun it hit => a_page it (hsub it hit), r_page, rest⟩
  | none =>
    rw [hpa] at h
    cases hpr : popUnserved st.served st.reus with
    | some pr =>
      rw [hpr] at h
      obtain ⟨hmem, hns, hsub⟩ := popUnserved_some st.served st.reus pr.1 pr.2 hpr
      rw [Option.some.injEq] at h
      subst h
      refine assignItem_inv page long w _ pr.1 _ (hinv.2.2.1 pr.1 hmem) hns
        (popUnserved_none_iff st.served st.avail hpa) ?_
      obtain ⟨w_page, a_page, r_page, rest⟩ := hinv
      exact ⟨w_page, fun it hit => absurd hit (List.not_mem_nil it),
        fun it hit => r_page it (hsub it hit), rest⟩
    | none =>
      rw [hpr] at h
      cases h

theorem allocSlot_inv (page long : List Nat) (w : String) (q : Nat)
    (st : AllocState) (hinv : LoopInv page long st) :
    LoopInv page long (allocSlot long w q st) := by
  induction q generalizing st with
  | zero => exact hinv
  | succ n ih =>
    rw [allocSlot]
    cases hu : allocUnit long w st with
    | none =>
      obtain ⟨w_page, a_page, r_page, rest⟩ := hinv
      exact ⟨w_page, fun it hit => absurd hit (List.not_mem_nil it),
        fun it hit => absurd hit (List.not_mem_nil it), rest⟩
    | some st' =>
      exact ih st' (allocUnit_inv page long w st st' hu hinv)

theorem allocWidgets_inv (page long : List Nat) (demand : List (String × Nat))
    (st : AllocState) (hinv : LoopInv page long st) :
    LoopInv page long (allocWidgets long demand st) := by
  induction demand generalizing st with
  | nil => exact hinv
  | cons wq rest ih =>
    exact ih _ (allocSlot_inv page long wq.1 wq.2 st hinv)

theorem runAllocation_inv (snapshot : List CachedPreviewItem)
    (request_data : TeaserRequestSchema) :
    LoopInv request_data.seen_ids_page request_data.seen_ids_long_term
      (runAllocation snapshot request_data) := by
  rw [runAllocation]
  refine allocWidgets_inv _ _ _ _ ?_
  refine ⟨?_, ?_, ?_, ?_, ?_, ?_, ?_, ?_⟩
  · intro kv hkv; cases hkv
  · intro it hit
    exact (buildPools_fst request_data.seen_ids_page request_data.seen_ids_long_term
      _ it hit).1
  · intro it hit
    exact (buildPools_snd request_data.seen_ids_page request_data.seen_ids_long_term
      _ it hit).2
  · exact List.nodup_nil
  · intro kv hkv; cases hkv
  · exact List.nodup_nil
  · intro it hit; cases hit
  · intro e he; cases he

/-! Claim theorems. -/

/-- C2: for every allocation call — any snapshot, widget demand and dedup
sets — no candidate whose id is in `seen_ids_page` is ever assigned to a
widget slot in the response's widgets map. -/
theorem exclusion_respected (snapshot : List CachedPreviewItem)
    (request_data : TeaserRequestSchema) (w : String) (p : ArticlePreview)
    (h : (w, p) ∈ (get_teasers_for_widgets snapshot request_data).widgets) :
    p.id ∉ request_data.seen_ids_page :=
  (runAllocation_inv snapshot request_data).1 (w, p) h

/-- Witness for C2 at a concrete input: the served candidate's id avoids the
page-seen list `[2]`. -/
theorem exclusion_respected_witness :
    (applySlug (sampleItem 1)).id ∉ reqPageSeen.seen_ids_page :=
  exclusion_respected [sampleItem 1] reqPageSeen "l00" (applySlug (sampleItem 1))
    (by decide)

/-- C3: for every single allocation call, the ids of the candidates assigned
across all filled widget slots are pairwise distinct. -/
theorem no_double_allocation (snapshot : List CachedPreviewItem)
    (request_data : TeaserRequestSchema) :
    (idsOf (get_teasers_for_widgets snapshot request_data).widgets).Nodup :=
  (runAllocation_inv snapshot request_data).2.2.2.1

/-- C4: for every allocation call, at the moment any reusable-pool item is
assigned, every item still remaining in the fresh cursor had already been
served in this request — reusable items are assigned only once the fresh
pool holds no unconsumed item. -/
theorem reusable_only_after_fresh_exhausted (snapshot : List CachedPreviewItem)
    (request_data : TeaserRequestSchema) (w : String)
    (availBefore : List CachedPreviewItem) (servedBefore : List Nat)
    (item : CachedPreviewItem)
    (h : AllocEvent.reusAssign w availBefore servedBefore item ∈
      (runAllocation snapshot request_data).trace) :
    ∀ x ∈ availBefore, x.preview_obj.id ∈ servedBefore :=
  (runAllocation_inv snapshot request_data).2.2.2.2.2.2.2 _ h

/-- Witness for C4 at a concrete input: a duplicate-id snapshot forces a
reusable assignment while a (served) fresh item remains in the cursor. -/
theorem reusable_only_after_fresh_exhausted_witness :
    (sampleItem 1).preview_obj.id ∈ ([1] : List Nat) :=
  reusable_only_after_fresh_exhausted
    [sampleItem 1, sampleItem 1, sampleItem 2] reqReuse "b"
    [sampleItem 1] [1] (sampleItem 2) (by decide)
    (sampleItem 1) (List.mem_singleton.mpr rfl)

/-- C5: for every category string with no matching candidate in a non-empty
snapshot, `get_ranked_previews` with `limit=None` and `offset=0` returns the
full unfiltered snapshot, which is non-empty, in snapshot order. -/
theorem category_fallback (snapshot : List CachedPreviewItem) (c : String)
    (hnone : ∀ item ∈ snapshot, item.category ≠ some c)
    (hne : snapshot ≠ []) :
    get_ranked_previews snapshot none 0 (some c) = snapshot ∧
      get_ranked_previews snapshot none 0 (some c) ≠ [] := by
  have heq : get_ranked_previews snapshot none 0 (some c) = snapshot := by
    by_cases hc : c = ""
    · subst hc
      simp [get_ranked_previews, truthyStr]
    · have hf : snapshot.filter (fun item => item.category == some c) = [] := by
        rw [List.filter_eq_nil_iff]
        intro a ha hba
        exact hnone a ha (beq_iff_eq.mp hba)
      simp [get_ranked_previews, truthyStr, hc, hf]
  refine ⟨heq, ?_⟩
  rw [heq]
  exact hne

/-- Witness for C5 at a concrete input: category `"news"` matches nothing in
a one-item snapshot, so the full snapshot comes back. -/
theorem category_fallback_witness :
    get_ranked_previews [sampleItem 1] none 0 (some "news") = [sampleItem 1] ∧
      get_ranked_previews [sampleItem 1] none 0 (some "news") ≠ [] :=
  category_fallback [sampleItem 1] "news" (by decide) (by decide)

/-- C1 (code bug): the allocation response carries no updated long-term
dedup list.  At the failing input the service serves id 7 with
`seen_ids_long_term = [1]`, yet the response's `seen_ids_long_term` is the
schema default `[]`, not `[1] ++ [7]` as the claim (and the schema's own
documentation of the field) requires. -/
theorem updated_long_term_never_returned :
    (get_teasers_for_widgets [sampleItem 7] reqOneSlotLong).newly_served_ids = [7] ∧
    (get_teasers_for_widgets [sampleItem 7] reqOneSlotLong).seen_ids_long_term = [] ∧
    (get_teasers_for_widgets [sampleItem 7] reqOneSlotLong).seen_ids_long_term ≠
      reqOneSlotLong.seen_ids_long_term ++
        (get_teasers_for_widgets [sampleItem 7] reqOneSlotLong).newly_served_ids := by
  refine ⟨by decide, by decide, by decide⟩

/-- C8: when the cache refresh raises, the previous snapshot list and the
last-refresh timestamp are unchanged, the refresh lock is released, the
failure is not surfaced (`run_update_in_background` returns a state, never
an exception), and a later `get_previews` past the TTL still spawns a
retry. -/
theorem refresh_failure_preserves_state (st : NewsCache) (now : Nat)
    (hlock : st.lock_held = false) (hsm : st.has_session_maker = true) :
    (run_update_in_background (Except.error ()) now st).previews = st.previews ∧
    (run_update_in_background (Except.error ()) now st).last_updated = st.last_updated ∧
    (run_update_in_background (Except.error ()) now st).lock_held = false ∧
    get_previews (run_update_in_background (Except.error ()) now st) = get_previews st ∧
    ∀ t : Nat, st.ttl < t - st.last_updated →
      update_if_needed_spawns t (run_update_in_background (Except.error ()) now st) = true := by
  have herr : update_cache_from_db (Except.error ()) now
      { st with lock_held := true } = Except.error () := by
    rw [update_cache_from_db.eq_def]
    rw [if_neg (by
      show ¬ (!({ st with lock_held := true }).has_session_maker) = true
      rw [hsm]
      exact Bool.false_ne_true)]
  have hrun : run_update_in_background (Except.error ()) now st =
      { st with lock_held := false } := by
    simp only [run_update_in_background, hlock, Bool.false_eq_true, if_false, herr]
  rw [hrun]
  refine ⟨rfl, rfl, rfl, rfl, fun t ht => ?_⟩
  rw [update_if_needed_spawns]
  show (decide (st.ttl < t - st.last_updated) && !false) = true
  rw [decide_eq_true ht]
  rfl

/-- Witness for C8 at a concrete cache state. -/
theorem refresh_failure_preserves_state_witness :
    (run_update_in_background (Except.error ()) 1000 sampleCache).previews =
        sampleCache.previews ∧
    (run_update_in_background (Except.error ()) 1000 sampleCache).last_updated =
        sampleCache.last_updated ∧
    (run_update_in_background (Except.error ()) 1000 sampleCache).lock_held = false ∧
    get_previews (run_update_in_background (Except.error ()) 1000 sampleCache) =
        get_previews sampleCache ∧
    ∀ t : Nat, sampleCache.ttl < t - sampleCache.last_updated →
      update_if_needed_spawns t
        (run_update_in_background (Except.error ()) 1000 sampleCache) = true :=
  refresh_failure_preserves_state sampleCache 1000 (by decide) (by decide)

/-- C9: under the micro-step interleaving of the refresh body, a concurrent
reader calling `get_previews` after any prefix of the refresh sees either
the complete pre-refresh snapshot or the complete post-refresh snapshot,
never a partial list — the replacement is a single atomic reference swap. -/
theorem snapshot_atomic_read (rows : List (Option ArticlePreview)) (now : Nat)
    (st : NewsCache) (pre suf : List RefreshStep)
    (_hsplit : refreshScript rows = pre ++ suf) :
    get_previews (execSteps (buildPreviews rows) now st pre) = get_previews st ∨
    get_previews (execSteps (buildPreviews rows) now st pre) = buildPreviews rows := by
  clear _hsplit
  induction pre generalizing st with
  | nil => exact Or.inl rfl
  | cons stp rest ih =>
    show get_previews (execSteps _ now (execStep (buildPreviews rows) now st stp) rest) = _ ∨ _
    cases stp with
    | localWork => exact ih st
    | setTimestamp =>
      rcases ih { st with last_updated := now } with h | h
      · exact Or.inl h
      · exact Or.inr h
    | swapPreviews =>
      rcases ih { st with previews := buildPreviews rows } with h | h
      · exact Or.inr h
      · exact Or.inr h

/-- Witness for C9: reading after the swap step of a one-row refresh yields
the complete new snapshot. -/
theorem snapshot_atomic_read_witness :
    get_previews (execSteps (buildPreviews [some (samplePreview 2)]) 400 sampleCache
        [RefreshStep.localWork, RefreshStep.swapPreviews]) =
      get_previews sampleCache ∨
    get_previews (execSteps (buildPreviews [some (samplePreview 2)]) 400 sampleCache
        [RefreshStep.localWork, RefreshStep.swapPreviews]) =
      buildPreviews [some (samplePreview 2)] :=
  snapshot_atomic_read [some (samplePreview 2)] 400 sampleCache
    [RefreshStep.localWork, RefreshStep.swapPreviews] [RefreshStep.setTimestamp]
    (by decide)

/-- C7 counterexample: the allocator is not free of effects on the cached
snapshot.  At a concrete input, the call sets the served item's
`preview_obj.slug` in place, so the snapshot differs after the call. -/
theorem allocation_mutates_snapshot :
    snapshotAfterCall [sampleItem 1] reqOrderLS =
      [{ sampleItem 1 with preview_obj := applySlug (sampleItem 1) }] ∧
    snapshotAfterCall [sampleItem 1] reqOrderLS ≠ [sampleItem 1] := by
  refine ⟨by decide, by decide⟩

/-- C7 (amended): the allocator is deterministic in (snapshot, demand,
dedup-state) — it is a pure function of them in this embedding — but it does
not leave the snapshot's items unchanged: each snapshot entry is either
untouched or altered exactly by the `preview_obj.slug := slug` write, the
list keeps its length (and hence order), and every entry whose id was not
served in the call is untouched. -/
theorem allocation_frame (snapshot : List CachedPreviewItem)
    (request_data : TeaserRequestSchema) (i : Nat) (hi : i < snapshot.length) :
    (snapshotAfterCall snapshot request_data).length = snapshot.length ∧
    ((snapshotAfterCall snapshot request_data).get? i = some (snapshot.get ⟨i, hi⟩) ∨
      (snapshotAfterCall snapshot request_data).get? i =
        some { snapshot.get ⟨i, hi⟩ with
               preview_obj := applySlug (snapshot.get ⟨i, hi⟩) }) ∧
    ((snapshot.get ⟨i, hi⟩).preview_obj.id ∉ (runAllocation snapshot request_data).served →
      (snapshotAfterCall snapshot request_data).get? i = some (snapshot.get ⟨i, hi⟩)) := by
  have hmap : ∀ c : CachedPreviewItem,
      (if c ∈ (runAllocation snapshot request_data).servedItems then
        { c with preview_obj := applySlug c } else c) = c ∨
      (if c ∈ (runAllocation snapshot request_data).servedItems then
        { c with preview_obj := applySlug c } else c) =
        { c with preview_obj := applySlug c } := by
    intro c
    by_cases hc : c ∈ (runAllocation snapshot request_data).servedItems
    · exact Or.inr (if_pos hc)
    · exact Or.inl (if_neg hc)
  have hget : (snapshotAfterCall snapshot request_data).get? i =
      some (if (snapshot.get ⟨i, hi⟩) ∈ (runAllocation snapshot request_data).servedItems
        then { snapshot.get ⟨i, hi⟩ with
               preview_obj := applySlug (snapshot.get ⟨i, hi⟩) }
        else snapshot.get ⟨i, hi⟩) := by
    rw [snapshotAfterCall, List.get?_map, List.get?_eq_get hi]
    rfl
  refine ⟨by rw [snapshotAfterCall, List.length_map], ?_, ?_⟩
  · rcases hmap (snapshot.get ⟨i, hi⟩) with h | h
    · exact Or.inl (by rw [hget, h])
    · exact Or.inr (by rw [hget, h])
  · intro hns
    have hnotin : (snapshot.get ⟨i, hi⟩) ∉ (runAllocation snapshot request_data).servedItems := by
      intro hin
      exact hns ((runAllocation_inv snapshot request_data).2.2.2.2.2.2.1 _ hin).1
    rw [hget, if_neg hnotin]

/-- Witness for C7 at a concrete input: the unserved second entry of a
two-item snapshot is untouched by the call. -/
theorem allocation_frame_witness :
    (snapshotAfterCall [sampleItem 1, sampleItem 2] reqOrderLS).length =
        ([sampleItem 1, sampleItem 2] : List CachedPreviewItem).length ∧
    ((snapshotAfterCall [sampleItem 1, sampleItem 2] reqOrderLS).get? 0 =
        some (([sampleItem 1, sampleItem 2] : List CachedPreviewItem).get ⟨0, by decide⟩) ∨
      (snapshotAfterCall [sampleItem 1, sampleItem 2] reqOrderLS).get? 0 =
        some { ([sampleItem 1, sampleItem 2] : List CachedPreviewItem).get ⟨0, by decide⟩ with
               preview_obj := applySlug
                 (([sampleItem 1, sampleItem 2] : List CachedPreviewItem).get ⟨0, by decide⟩) }) ∧
    ((([sampleItem 1, sampleItem 2] : List CachedPreviewItem).get ⟨0, by decide⟩).preview_obj.id ∉
        (runAllocation [sampleItem 1, sampleItem 2] reqOrderLS).served →
      (snapshotAfterCall [sampleItem 1, sampleItem 2] reqOrderLS).get? 0 =
        some (([sampleItem 1, sampleItem 2] : List CachedPreviewItem).get ⟨0, by decide⟩)) :=
  allocation_frame [sampleItem 1, sampleItem 2] reqOrderLS 0 (by decide)

/-- C10: the response dict holds at most one candidate per slot key (keys
are pairwise distinct, each later unit for the same slot overwriting the
value), every consumed candidate is marked served and, when not long-term
seen, reported in `newly_served_ids`; consequently at a concrete input with
quantity 2 the slot shows only the second candidate while both consumed ids
are reported, one of them appearing in no widget value. -/
theorem quantity_overwrites_slot_but_reports_all :
    (∀ (snapshot : List CachedPreviewItem) (request_data : TeaserRequestSchema),
      (keysOf (get_teasers_for_widgets snapshot request_data).widgets).Nodup) ∧
    (∀ (snapshot : List CachedPreviewItem) (request_data : TeaserRequestSchema)
      (it : CachedPreviewItem),
      it ∈ (runAllocation snapshot request_data).servedItems →
      it.preview_obj.id ∈ (runAllocation snapshot request_data).served ∧
        (it.preview_obj.id ∉ request_data.seen_ids_long_term →
          it.preview_obj.id ∈
            (get_teasers_for_widgets snapshot request_data).newly_served_ids)) ∧
    ((get_teasers_for_widgets [sampleItem 1, sampleItem 2] reqQtyTwo).widgets =
        [("l", applySlug (sampleItem 2))] ∧
      (get_teasers_for_widgets [sampleItem 1, sampleItem 2] reqQtyTwo).newly_served_ids =
        [1, 2] ∧
      1 ∉ idsOf (get_teasers_for_widgets [sampleItem 1, sampleItem 2] reqQtyTwo).widgets) := by
  refine ⟨?_, ?_, by decide, by decide, by decide⟩
  · intro snapshot request_data
    exact (runAllocation_inv snapshot request_data).2.2.2.2.2.1
  · intro snapshot request_data it hit
    obtain ⟨h1, h2⟩ := (runAllocation_inv snapshot request_data).2.2.2.2.2.2.1 it hit
    exact ⟨h1, fun hl => List.mem_dedup.mpr (h2 hl)⟩

/-- Witness for C10: the first consumed candidate of the quantity-2 request
is reported in `newly_served_ids` even though it appears in no widget
value. -/
theorem quantity_overwrites_slot_but_reports_all_witness :
    (sampleItem 1).preview_obj.id ∈
      (get_teasers_for_widgets [sampleItem 1, sampleItem 2] reqQtyTwo).newly_served_ids :=
  (quantity_overwrites_slot_but_reports_all.2.1 [sampleItem 1, sampleItem 2] reqQtyTwo
    (sampleItem 1) (by decide)).2 (by decide)

theorem upsert_not_mem_keys (m : List (String × ArticlePreview)) (k : String)
    (v : ArticlePreview) (h : k ∉ keysOf m) : upsert m k v = m ++ [(k, v)] := by
  induction m with
  | nil => rfl
  | cons a rest ih =>
    rw [keysOf, List.map_cons, List.mem_cons] at h
    push_neg at h
    rw [upsert, if_neg (fun hb => h.1 (beq_iff_eq.mp hb).symm), List.cons_append,
      ih h.2]

theorem allocSlot_succ (long : List Nat) (w : String) (q : Nat) (st : AllocState) :
    allocSlot long w (q + 1) st =
      match allocUnit long w st with
      | none => { st with avail := [], reus := [] }
      | some st' => allocSlot long w q st' := rfl

theorem get_ranked_previews_nocat (snapshot : List CachedPreviewItem) :
    get_ranked_previews snapshot none 0 none = snapshot := by
  simp [get_ranked_previews, truthyStr]

theorem buildPools_empty (l : List CachedPreviewItem) :
    buildPools [] [] l = (l, []) := by
  induction l with
  | nil => rfl
  | cons a rest ih =>
    simp [buildPools, ih]

theorem allocWidgets_units (long : List Nat) (names : List String)
    (items reusPool : List CachedPreviewItem) (served : List Nat)
    (acc : List (String × ArticlePreview)) (nIds : List Nat)
    (sItems : List CachedPreviewItem) (tr : List AllocEvent)
    (hnd : names.Nodup)
    (hkeys : ∀ n ∈ names, n ∉ keysOf acc)
    (hserved : ∀ it ∈ items, it.preview_obj.id ∉ served)
    (hids : (items.map (fun it => it.preview_obj.id)).Nodup)
    (hlen : names.length ≤ items.length) :
    (allocWidgets long (names.map (fun n => (n, 1)))
      { avail := items, reus := reusPool, served := served, widgetsOut := acc,
        newIds := nIds, servedItems := sItems, trace := tr }).widgetsOut =
      acc ++ names.zip ((items.take names.length).map applySlug) := by
  induction names generalizing items served acc nIds sItems tr reusPool with
  | nil =>
    simp [allocWidgets]
  | cons n ns ih =>
    cases items with
    | nil =>
      exact absurd hlen (by simp)
    | cons i0 irest =>
      have hi0 : i0.preview_obj.id ∉ served :=
        hserved i0 (List.mem_cons_self i0 irest)
      have hpop : popUnserved served (i0 :: irest) = some (i0, irest) := by
        rw [popUnserved, if_neg hi0]
      have hunit : allocUnit long n
          { avail := i0 :: irest, reus := reusPool, served := served,
            widgetsOut := acc, newIds := nIds, servedItems := sItems, trace := tr } =
          some (assignItem long n (AllocEvent.freshAssign n i0) i0
            { avail := irest, reus := reusPool, served := served,
              widgetsOut := acc, newIds := nIds, servedItems := sItems, trace := tr }) := by
        simp only [allocUnit, hpop]
      obtain ⟨hn, hns⟩ := List.nodup_cons.mp hnd
      rw [List.map_cons, allocWidgets, show (1 : Nat) = 0 + 1 from rfl,
        allocSlot_succ, hunit]
      show (allocWidgets long (ns.map (fun n => (n, 1)))
        (allocSlot long n 0 (assignItem long n (AllocEvent.freshAssign n i0) i0
          { avail := irest, reus := reusPool, served := served,
            widgetsOut := acc, newIds := nIds, servedItems := sItems,
            trace := tr }))).widgetsOut = _
      have hkacc : n ∉ keysOf acc := hkeys n (List.mem_cons_self n ns)
      have hidn : i0.preview_obj.id ∉ irest.map (fun it => it.preview_obj.id) :=
        (List.nodup_cons.mp (by
          rw [List.map_cons] at hids
          exact hids)).1
      have hassign : allocSlot long n 0 (assignItem long n
          (AllocEvent.freshAssign n i0) i0
          { avail := irest, reus := reusPool, served := served,
            widgetsOut := acc, newIds := nIds, servedItems := sItems,
            trace := tr }) =
          { avail := irest, reus := reusPool,
            served := served ++ [(applySlug i0).id],
            widgetsOut := acc ++ [(n, applySlug i0)],
            newIds := if (applySlug i0).id ∈ long then nIds
              else nIds ++ [(applySlug i0).id],
            servedItems := sItems ++ [i0],
            trace := tr ++ [AllocEvent.freshAssign n i0] } := by
        rw [allocSlot]
        simp only [assignItem]
        rw [upsert_not_mem_keys acc n (applySlug i0) hkacc]
      rw [hassign]
      rw [ih irest reusPool (served ++ [(applySlug i0).id])
        (acc ++ [(n, applySlug i0)])
        (if (applySlug i0).id ∈ long then nIds else nIds ++ [(applySlug i0).id])
        (sItems ++ [i0]) (tr ++ [AllocEvent.freshAssign n i0])
        hns
        (by
          intro n' hn'
          rw [keysOf, List.map_append, List.mem_append]
          rintro (hc | hc)
          · exact hkeys n' (List.mem_cons_of_mem n hn') hc
          · rcases List.mem_singleton.mp (by

              simpa using hc) with rfl
            exact hn hn')
        (by
          intro it hit
          rw [List.mem_append]
          rintro (hc | hc)
          · exact hserved it (List.mem_cons_of_mem i0 hit) hc
          · have he : it.preview_obj.id = i0.preview_obj.id := by
              rw [applySlug_id] at hc
              exact List.mem_singleton.mp hc
            refine hidn ?_
            rw [← he]
            exact List.mem_map.mpr ⟨it, hit, rfl⟩
          )
        (by
          rw [List.map_cons, List.nodup_cons] at hids
          exact hids.2)
        (by
          rw [List.length_cons] at hlen
          exact Nat.succ_le_succ_iff.mp hlen)]
      rw [List.length_cons, List.take_succ_cons, List.map_cons, List.zip_cons_cons,
        List.append_assoc, List.singleton_append]

/-- C6 counterexample: widget slots are not processed in a fixed priority
order.  Two requests whose widgets mappings are permutations of each other
assign different candidates to slot `l`: the slot named first always
receives the top-ranked item. -/
theorem request_order_matters :
    reqOrderLS.widgets.Perm reqOrderSL.widgets ∧
    (get_teasers_for_widgets [sampleItem 1, sampleItem 2] reqOrderLS).widgets.lookup "l" =
      some (applySlug (sampleItem 1)) ∧
    (get_teasers_for_widgets [sampleItem 1, sampleItem 2] reqOrderSL).widgets.lookup "l" =
      some (applySlug (sampleItem 2)) ∧
    (get_teasers_for_widgets [sampleItem 1, sampleItem 2] reqOrderLS).widgets.lookup "l" ≠
      (get_teasers_for_widgets [sampleItem 1, sampleItem 2] reqOrderSL).widgets.lookup "l" := by
  refine ⟨by decide, by decide, by decide, by decide⟩

/-- C6 (amended): widget slots are processed in the order their names appear
in the request's widgets mapping (Python dict insertion order), not in a
fixed priority order; with unit quantities, distinct slot names, no
exclusions and enough candidates, the i-th slot name in the request receives
the i-th ranked candidate. -/
theorem slots_follow_request_order (names : List String)
    (snapshot : List CachedPreviewItem)
    (hnd : names.Nodup)
    (hids : (snapshot.map (fun it => it.preview_obj.id)).Nodup)
    (hlen : names.length ≤ snapshot.length) :
    (get_teasers_for_widgets snapshot
      { widgets := names.map (fun n => (n, 1)), seen_ids_page := [],
        seen_ids_long_term := [], category := none }).widgets =
      names.zip ((snapshot.take names.length).map applySlug) := by
  show (runAllocation snapshot
    { widgets := names.map (fun n => (n, 1)), seen_ids_page := [],
      seen_ids_long_term := [], category := none }).widgetsOut = _
  have hrun : runAllocation snapshot
      { widgets := names.map (fun n => (n, 1)), seen_ids_page := [],
        seen_ids_long_term := [], category := none } =
      allocWidgets [] (names.map (fun n => (n, 1)))
        { avail := snapshot, reus := [], served := [], widgetsOut := [],
          newIds := [], servedItems := [], trace := [] } := by
    rw [runAllocation]
    simp only [get_ranked_previews_nocat, buildPools_empty]
  rw [hrun]
  rw [allocWidgets_units [] names snapshot [] [] [] [] [] [] hnd
    (fun n _ hc => absurd hc (List.not_mem_nil n))
    (fun it _ hc => absurd hc (List.not_mem_nil it.preview_obj.id))
    hids hlen]
  rw [List.nil_append]

/-- Witness for C6 (amended) at a concrete input: slots `a` then `b` receive
the first and second ranked candidates in request order. -/
theorem slots_follow_request_order_witness :
    (get_teasers_for_widgets [sampleItem 1, sampleItem 2, sampleItem 3]
      { widgets := ["a", "b"].map (fun n => (n, 1)), seen_ids_page := [],
        seen_ids_long_term := [], category := none }).widgets =
      ["a", "b"].zip
        ((([sampleItem 1, sampleItem 2, sampleItem 3] :
          List CachedPreviewItem).take (["a", "b"] : List String).length).map applySlug) :=
  slots_follow_request_order ["a", "b"] [sampleItem 1, sampleItem 2, sampleItem 3]
    (by decide) (by decide) (by decide)

end TrafficArbitration
